import Mathlib

/-!
Verification development for the gipas-mute scheduled-mute plugin.

The embedding follows the TypeScript source:
* `src/src/types.ts` — data model (MuteRule, MuteGroup, WeekGroup, GroupConfig,
  MuteState, ExpectedState, HolidayCheckResult, GlobalConfig);
* `src/src/Utils/utils.ts` — `getExpectedState` (rule matching with previous-day
  lookback) and the holiday checkers (`checkHolidayOffline`, `checkHolidayOnline`,
  `checkHolidayHybrid` and their caches);
* `MuteCore` — `getApplicableMuteGroupName`, `computeExpectedState`,
  `reconcileMuteState`, the heartbeat body `run` and the on-demand
  `checkGroupNow`;
* `setGroupMute` — the multi-backend OneBot action.

The source stores times of day as "HH:mm" strings and every comparison first
maps them through `parseTimeToMinutes`; the embedding therefore carries the
parsed minutes-since-midnight value (a `Nat`) directly.  Epoch timestamps are
`Int` (JS numbers used only via subtraction and comparison).  Fallible code
returns `Option`/`Except`; JS `Map`s built by insertion (later `set` wins) are
modelled as association lists looked up from the most recent insertion.
-/

namespace GipasMute

/-- A single mute rule (`MuteRule` in types.ts): a trigger time of day and the
state it switches to.  `time` is the parsed minutes-since-midnight of the
source's "HH:mm" string. -/
structure MuteRule where
  time : Nat
  isMuted : Bool
deriving DecidableEq

/-- A mute group (`MuteGroup` in types.ts): a named day-cycle of rules plus
notification settings. -/
structure MuteGroup where
  name : String
  sendNotification : Bool
  message : Option String
  rules : List MuteRule
deriving DecidableEq

/-- The result of `getExpectedState` (`ExpectedState` in types.ts). -/
structure ExpectedState where
  isMuted : Bool
  triggerTime : Nat
  muteGroupName : String
  isFromPreviousDay : Bool
deriving DecidableEq

/-- Stable insertion of a rule into a list sorted ascending by `time`;
an incoming rule goes before the first element whose time is ≥ its own,
hence after every earlier-inserted rule with the same time. -/
def insertRule (r : MuteRule) : List MuteRule → List MuteRule
  | [] => [r]
  | x :: xs => if r.time ≤ x.time then r :: x :: xs else x :: insertRule r xs

/-- The source's `[...muteGroup.rules].sort((a, b) => pa - pb)`:
JavaScript `Array.prototype.sort` is a stable ascending sort, and a stable
ascending sort has a unique result, so stable insertion sort models it
exactly. -/
def sortRules : List MuteRule → List MuteRule
  | [] => []
  | r :: rest => insertRule r (sortRules rest)

/-- The source's backwards `for` loop: the last rule in list order whose time
is ≤ `now` (scanning the sorted list from the end, first hit wins). -/
def findLastLE (now : Nat) : List MuteRule → Option MuteRule
  | [] => none
  | r :: rest =>
    match findLastLE now rest with
    | some m => some m
    | none => if r.time ≤ now then some r else none

/-- `sortedRules[sortedRules.length - 1]` for a non-empty list. -/
def lastRule : List MuteRule → Option MuteRule
  | [] => none
  | [r] => some r
  | _ :: r :: rest => lastRule (r :: rest)

/-- `getExpectedState` (utils.ts): sort the rules ascending by time, take the
last rule with `time ≤ now`; if none matched, fall back to the chronologically
last rule with `isFromPreviousDay = true`.  The source throws on an empty rule
list; the embedding returns `none` there. -/
def getExpectedState (nowMinutes : Nat) (g : MuteGroup) : Option ExpectedState :=
  let sorted := sortRules g.rules
  match lastRule sorted with
  | none => none
  | some lastR =>
    match findLastLE nowMinutes sorted with
    | some r => some ⟨r.isMuted, r.time, g.name, false⟩
    | none => some ⟨lastR.isMuted, lastR.time, g.name, true⟩

/-- The two-rule demo group from the spec's §8 lookback examples:
`{07:00 muted, 18:00 unmuted}` (420 and 1080 minutes). -/
def demoGroup : MuteGroup :=
  ⟨"default", false, none, [⟨420, true⟩, ⟨1080, false⟩]⟩

theorem mem_insertRule {x r : MuteRule} {l : List MuteRule} :
    x ∈ insertRule r l ↔ x = r ∨ x ∈ l := by
  induction l with
  | nil => simp [insertRule]
  | cons a as ih =>
    by_cases h : r.time ≤ a.time
    · simp [insertRule, h]
    · simp [insertRule, h, ih]
      tauto

theorem mem_sortRules {x : MuteRule} {l : List MuteRule} :
    x ∈ sortRules l ↔ x ∈ l := by
  induction l with
  | nil => simp [sortRules]
  | cons a as ih => simp [sortRules, mem_insertRule, ih]

theorem insertRule_ne_nil (r : MuteRule) (l : List MuteRule) :
    insertRule r l ≠ [] := by
  cases l with
  | nil => simp [insertRule]
  | cons a as =>
    by_cases h : r.time ≤ a.time <;> simp [insertRule, h]

theorem sortRules_eq_nil_iff {l : List MuteRule} : sortRules l = [] ↔ l = [] := by
  cases l with
  | nil => simp [sortRules]
  | cons a as => simp [sortRules, insertRule_ne_nil]

/-- Ascending sortedness by time. -/
def SortedByTime (l : List MuteRule) : Prop :=
  l.Pairwise (fun a b => a.time ≤ b.time)

theorem insertRule_sorted {r : MuteRule} {l : List MuteRule}
    (h : SortedByTime l) : SortedByTime (insertRule r l) := by
  induction l with
  | nil => simp [insertRule, SortedByTime]
  | cons a as ih =>
    rw [SortedByTime, List.pairwise_cons] at h
    by_cases hr : r.time ≤ a.time
    · rw [SortedByTime, insertRule, if_pos hr, List.pairwise_cons]
      refine ⟨?_, ?_⟩
      · intro b hb
        rcases List.mem_cons.mp hb with hb | hb
        · exact hb ▸ hr
        · exact le_trans hr (h.1 b hb)
      · rw [List.pairwise_cons]
        exact h
    · rw [SortedByTime, insertRule, if_neg hr, List.pairwise_cons]
      refine ⟨?_, ih h.2⟩
      intro b hb
      rcases mem_insertRule.mp hb with hb | hb
      · exact hb ▸ le_of_lt (Nat.lt_of_not_le hr)
      · exact h.1 b hb

theorem sortRules_sorted (l : List MuteRule) : SortedByTime (sortRules l) := by
  induction l with
  | nil => simp [sortRules, SortedByTime]
  | cons a as ih => exact insertRule_sorted ih

theorem findLastLE_eq_none {now : Nat} {l : List MuteRule} :
    findLastLE now l = none ↔ ∀ x ∈ l, ¬ x.time ≤ now := by
  induction l with
  | nil => simp [findLastLE]
  | cons a as ih =>
    rw [findLastLE]
    cases h : findLastLE now as with
    | some m =>
      simp only [reduceCtorEq, false_iff]
      intro hall
      have : ∀ x ∈ as, ¬ x.time ≤ now := fun x hx => hall x (List.mem_cons_of_mem _ hx)
      rw [← ih] at this
      rw [this] at h
      exact Option.noConfusion h
    | none =>
      by_cases ha : a.time ≤ now
      · simp only [if_pos ha, reduceCtorEq, false_iff]
        intro hall
        exact hall a (List.mem_cons_self a as) ha
      · simp only [if_neg ha, true_iff]
        intro x hx
        rcases List.mem_cons.mp hx with hx | hx
        · exact hx ▸ ha
        · exact (ih.mp h) x hx

theorem findLastLE_mem {now : Nat} {l : List MuteRule} {r : MuteRule}
    (h : findLastLE now l = some r) : r ∈ l ∧ r.time ≤ now := by
  induction l with
  | nil => simp [findLastLE] at h
  | cons a as ih =>
    rw [findLastLE] at h
    cases hrest : findLastLE now as with
    | some m =>
      rw [hrest] at h
      injection h with heq
      subst heq
      obtain ⟨hm, hle⟩ := ih hrest
      exact ⟨List.mem_cons_of_mem _ hm, hle⟩
    | none =>
      rw [hrest] at h
      by_cases ha : a.time ≤ now
      · rw [if_pos ha] at h
        injection h with heq
        subst heq
        exact ⟨List.mem_cons_self a as, ha⟩
      · rw [if_neg ha] at h
        exact Option.noConfusion h

theorem findLastLE_max {now : Nat} {l : List MuteRule} {r : MuteRule}
    (hs : SortedByTime l) (h : findLastLE now l = some r) :
    ∀ x ∈ l, x.time ≤ now → x.time ≤ r.time := by
  induction l with
  | nil => simp [findLastLE] at h
  | cons a as ih =>
    rw [SortedByTime, List.pairwise_cons] at hs
    rw [findLastLE] at h
    intro x hx hxle
    cases hrest : findLastLE now as with
    | some m =>
      rw [hrest] at h
      injection h with heq
      subst heq
      rcases List.mem_cons.mp hx with hx | hx
      · exact hx ▸ hs.1 m (findLastLE_mem hrest).1
      · exact ih hs.2 hrest x hx hxle
    | none =>
      rw [hrest] at h
      by_cases ha : a.time ≤ now
      · rw [if_pos ha] at h
        injection h with heq
        subst heq
        rcases List.mem_cons.mp hx with hx | hx
        · exact hx ▸ le_refl _
        · exact absurd hxle (findLastLE_eq_none.mp hrest x hx)
      · rw [if_neg ha] at h
        exact Option.noConfusion h

theorem lastRule_mem {l : List MuteRule} {r : MuteRule}
    (h : lastRule l = some r) : r ∈ l := by
  induction l with
  | nil => simp [lastRule] at h
  | cons a as ih =>
    cases as with
    | nil =>
      rw [lastRule] at h
      cases h
      exact List.mem_singleton_self _
    | cons b bs =>
      rw [lastRule] at h
      exact List.mem_cons_of_mem _ (ih h)

theorem lastRule_eq_none_iff {l : List MuteRule} : lastRule l = none ↔ l = [] := by
  induction l with
  | nil => simp [lastRule]
  | cons a as ih =>
    cases as with
    | nil => simp [lastRule]
    | cons b bs =>
      rw [lastRule]
      simp only [reduceCtorEq, iff_false]
      intro hcontra
      rw [ih] at hcontra
      exact List.noConfusion hcontra

theorem lastRule_max {l : List MuteRule} {r : MuteRule}
    (hs : SortedByTime l) (h : lastRule l = some r) :
    ∀ x ∈ l, x.time ≤ r.time := by
  induction l with
  | nil => simp [lastRule] at h
  | cons a as ih =>
    rw [SortedByTime, List.pairwise_cons] at hs
    intro x hx
    cases as with
    | nil =>
      rw [lastRule] at h
      cases h
      rcases List.mem_cons.mp hx with hx | hx
      · exact hx ▸ le_refl _
      · simp at hx
    | cons b bs =>
      rw [lastRule] at h
      rcases List.mem_cons.mp hx with hx | hx
      · exact hx ▸ hs.1 r (lastRule_mem h)
      · exact ih hs.2 h x hx

/-- The selection behaviour claimed for `getExpectedState` on a non-empty rule
group: the chosen rule is a member of the group; when some rule's time is
≤ `now`, the result carries a matching rule of maximal qualifying time with
`isFromPreviousDay = false`; when `now` precedes every rule, the result carries
a rule of maximal time with `isFromPreviousDay = true`. -/
def RuleSelectionSpec (now : Nat) (g : MuteGroup) (s : ExpectedState) : Prop :=
  s.muteGroupName = g.name ∧
  ∃ r ∈ g.rules,
    s.isMuted = r.isMuted ∧ s.triggerTime = r.time ∧
    ((s.isFromPreviousDay = false ∧ r.time ≤ now ∧
        ∀ x ∈ g.rules, x.time ≤ now → x.time ≤ r.time) ∨
     (s.isFromPreviousDay = true ∧ (∀ x ∈ g.rules, now < x.time) ∧
        ∀ x ∈ g.rules, x.time ≤ r.time))

theorem getExpectedState_spec (now : Nat) (g : MuteGroup) (hne : g.rules ≠ []) :
    ∃ s, getExpectedState now g = some s ∧ RuleSelectionSpec now g s := by
  have hsne : sortRules g.rules ≠ [] := fun hc => hne (sortRules_eq_nil_iff.mp hc)
  have hged : getExpectedState now g =
      match lastRule (sortRules g.rules) with
      | none => none
      | some lastR =>
        match findLastLE now (sortRules g.rules) with
        | some r => some ⟨r.isMuted, r.time, g.name, false⟩
        | none => some ⟨lastR.isMuted, lastR.time, g.name, true⟩ := rfl
  rw [hged]
  cases hlast : lastRule (sortRules g.rules) with
  | none => exact absurd (lastRule_eq_none_iff.mp hlast) hsne
  | some lastR =>
    cases hfind : findLastLE now (sortRules g.rules) with
    | some r =>
      refine ⟨_, rfl, rfl, r, ?_, rfl, rfl, Or.inl ⟨rfl, ?_, ?_⟩⟩
      · exact mem_sortRules.mp (findLastLE_mem hfind).1
      · exact (findLastLE_mem hfind).2
      · intro x hx hxle
        exact findLastLE_max (sortRules_sorted _) hfind x (mem_sortRules.mpr hx) hxle
    | none =>
      refine ⟨_, rfl, rfl, lastR, ?_, rfl, rfl, Or.inr ⟨rfl, ?_, ?_⟩⟩
      · exact mem_sortRules.mp (lastRule_mem hlast)
      · intro x hx
        exact Nat.lt_of_not_le (findLastLE_eq_none.mp hfind x (mem_sortRules.mpr hx))
      · intro x hx
        exact lastRule_max (sortRules_sorted _) hlast x (mem_sortRules.mpr hx)

/-- C1: for every non-empty rule group and every instant, `getExpectedState`
returns the latest rule whose time of day is ≤ now (boundary inclusive) with
`isFromPreviousDay = false`; when now precedes the day's earliest rule it
returns the chronologically last rule of the same group with
`isFromPreviousDay = true`.  In particular, for rules {07:00 muted, 18:00
unmuted}: now = 02:00 yields {muted: false, triggerTime: 18:00,
lookedBackADay: true}, now = 09:00 yields {muted: true, triggerTime: 07:00,
lookedBackADay: false}, and now = 18:00 exactly yields {muted: false,
lookedBackADay: false}. -/
theorem claim1_rule_matching_and_lookback :
    (∀ (now : Nat) (g : MuteGroup), g.rules ≠ [] →
      ∃ s, getExpectedState now g = some s ∧ RuleSelectionSpec now g s) ∧
    getExpectedState 120 demoGroup = some ⟨false, 1080, "default", true⟩ ∧
    getExpectedState 540 demoGroup = some ⟨true, 420, "default", false⟩ ∧
    getExpectedState 1080 demoGroup = some ⟨false, 1080, "default", false⟩ :=
  ⟨getExpectedState_spec, by decide, by decide, by decide⟩

/-- Witness for C1 at the concrete demo group and now = 09:00. -/
theorem claim1_rule_matching_and_lookback_witness :
    demoGroup.rules ≠ [] ∧
    ∃ s, getExpectedState 540 demoGroup = some s ∧ RuleSelectionSpec 540 demoGroup s :=
  ⟨by decide, claim1_rule_matching_and_lookback.1 540 demoGroup (by decide)⟩

theorem getExpectedState_def (now : Nat) (g : MuteGroup) :
    getExpectedState now g =
      match lastRule (sortRules g.rules) with
      | none => none
      | some lastR =>
        match findLastLE now (sortRules g.rules) with
        | some r => some ⟨r.isMuted, r.time, g.name, false⟩
        | none => some ⟨lastR.isMuted, lastR.time, g.name, true⟩ := rfl

theorem getExpectedState_eq_none_iff (now : Nat) (g : MuteGroup) :
    getExpectedState now g = none ↔ g.rules = [] := by
  constructor
  · intro h
    by_contra hne
    obtain ⟨s, hs, _⟩ := getExpectedState_spec now g hne
    rw [hs] at h
    exact Option.noConfusion h
  · intro h
    rw [getExpectedState_def, sortRules_eq_nil_iff.mpr h]
    rfl

theorem getExpectedState_isSome (now : Nat) (g : MuteGroup) (hne : g.rules ≠ []) :
    (getExpectedState now g).isSome := by
  obtain ⟨s, hs, _⟩ := getExpectedState_spec now g hne
  rw [hs]
  rfl

theorem getExpectedState_perm (now : Nat) (g1 g2 : MuteGroup)
    (hname : g1.name = g2.name) (hperm : g1.rules.Perm g2.rules)
    (hnodup : (g1.rules.map MuteRule.time).Nodup) :
    getExpectedState now g1 = getExpectedState now g2 := by
  by_cases hne : g1.rules = []
  · have hp : List.Perm ([] : List MuteRule) g2.rules := hne ▸ hperm
    have h2 : g2.rules = [] := hp.symm.eq_nil
    rw [(getExpectedState_eq_none_iff now g1).mpr hne,
      (getExpectedState_eq_none_iff now g2).mpr h2]
  · have hne2 : g2.rules ≠ [] := by
      intro hc
      have hp : List.Perm g1.rules ([] : List MuteRule) := hc ▸ hperm
      exact hne hp.eq_nil
    obtain ⟨s1, hs1, hn1, r1, hr1mem, hmu1, htt1, hcase1⟩ :=
      getExpectedState_spec now g1 hne
    obtain ⟨s2, hs2, hn2, r2, hr2mem, hmu2, htt2, hcase2⟩ :=
      getExpectedState_spec now g2 hne2
    have hr2mem1 : r2 ∈ g1.rules := hperm.mem_iff.mpr hr2mem
    have hr1mem2 : r1 ∈ g2.rules := hperm.mem_iff.mp hr1mem
    have hr12 : r1 = r2 := by
      rcases hcase1 with ⟨hf1, hle1, hmax1⟩ | ⟨hf1, hall1, hmax1⟩
      · rcases hcase2 with ⟨hf2, hle2, hmax2⟩ | ⟨hf2, hall2, hmax2⟩
        · have h12 : r1.time ≤ r2.time := hmax2 r1 hr1mem2 hle1
          have h21 : r2.time ≤ r1.time := hmax1 r2 hr2mem1 hle2
          exact List.inj_on_of_nodup_map hnodup hr1mem hr2mem1
            (le_antisymm h12 h21)
        · exact absurd hle1 (Nat.not_le_of_lt (hall2 r1 hr1mem2))
      · rcases hcase2 with ⟨hf2, hle2, hmax2⟩ | ⟨hf2, hall2, hmax2⟩
        · exact absurd hle2 (Nat.not_le_of_lt (hall1 r2 hr2mem1))
        · have h12 : r1.time ≤ r2.time := hmax2 r1 hr1mem2
          have h21 : r2.time ≤ r1.time := hmax1 r2 hr2mem1
          exact List.inj_on_of_nodup_map hnodup hr1mem hr2mem1
            (le_antisymm h12 h21)
    have hflag : s1.isFromPreviousDay = s2.isFromPreviousDay := by
      rcases hcase1 with ⟨hf1, hle1, hmax1⟩ | ⟨hf1, hall1, hmax1⟩
      · rcases hcase2 with ⟨hf2, hle2, hmax2⟩ | ⟨hf2, hall2, hmax2⟩
        · rw [hf1, hf2]
        · exact absurd hle1 (Nat.not_le_of_lt (hall2 r1 hr1mem2))
      · rcases hcase2 with ⟨hf2, hle2, hmax2⟩ | ⟨hf2, hall2, hmax2⟩
        · exact absurd hle2 (Nat.not_le_of_lt (hall1 r2 hr2mem1))
        · rw [hf1, hf2]
    rw [hs1, hs2]
    obtain ⟨a1, b1, c1, d1⟩ := s1
    obtain ⟨a2, b2, c2, d2⟩ := s2
    simp only at hmu1 hmu2 htt1 htt2 hn1 hn2 hflag
    rw [hmu1, hmu2, htt1, htt2, hn1, hn2, hflag, hr12, hname]

/-- C6 counterexample: the two rule lists `[{01:00, muted}, {01:00, unmuted}]`
and `[{01:00, unmuted}, {01:00, muted}]` are permutations of each other, yet at
now = 01:00 `getExpectedState` returns different states: the stable ascending
sort preserves input order of equal times and the scan from the end picks the
later entry, so the result depends on the input ordering of rules that share a
time of day. -/
theorem claim6_counterexample :
    List.Perm [(⟨60, true⟩ : MuteRule), ⟨60, false⟩] [⟨60, false⟩, ⟨60, true⟩] ∧
    getExpectedState 60 ⟨"g", false, none, [⟨60, true⟩, ⟨60, false⟩]⟩ ≠
      getExpectedState 60 ⟨"g", false, none, [⟨60, false⟩, ⟨60, true⟩]⟩ :=
  ⟨List.Perm.swap (⟨60, false⟩ : MuteRule) (⟨60, true⟩ : MuteRule) [], by decide⟩

/-- C6 amended: for every non-empty rule group `getExpectedState` returns
exactly one `ExpectedState`, and the result is invariant under permutations of
the input rules list provided the rules' times of day are pairwise distinct;
for rules sharing a time of day the result can depend on the input order (see
the counterexample). -/
theorem claim6_unique_result_and_perm_invariance :
    (∀ (now : Nat) (g : MuteGroup), g.rules ≠ [] →
      (getExpectedState now g).isSome) ∧
    (∀ (now : Nat) (g1 g2 : MuteGroup), g1.name = g2.name →
      g1.rules.Perm g2.rules → (g1.rules.map MuteRule.time).Nodup →
      getExpectedState now g1 = getExpectedState now g2) :=
  ⟨getExpectedState_isSome, getExpectedState_perm⟩

/-- Witness for the amended C6 at the demo group and its reversal. -/
theorem claim6_unique_result_and_perm_invariance_witness :
    demoGroup.rules ≠ [] ∧ (getExpectedState 540 demoGroup).isSome ∧
    getExpectedState 540 demoGroup =
      getExpectedState 540 ⟨"default", false, none, [⟨1080, false⟩, ⟨420, true⟩]⟩ :=
  ⟨by decide,
   claim6_unique_result_and_perm_invariance.1 540 demoGroup (by decide),
   claim6_unique_result_and_perm_invariance.2 540 demoGroup
     ⟨"default", false, none, [⟨1080, false⟩, ⟨420, true⟩]⟩ rfl
     (by exact List.Perm.swap (⟨1080, false⟩ : MuteRule) (⟨420, true⟩ : MuteRule) [])
     (by decide)⟩

/-- Day of the week, as produced by `getDayOfWeek` in utils.ts. -/
inductive Weekday
  | sunday
  | monday
  | tuesday
  | wednesday
  | thursday
  | friday
  | saturday
deriving DecidableEq

/-- `WeekdayConfig` in types.ts: the mute-group name used on each weekday. -/
structure WeekdayConfig where
  monday : String
  tuesday : String
  wednesday : String
  thursday : String
  friday : String
  saturday : String
  sunday : String
deriving DecidableEq

/-- `weekGroup.weekdays[dayOfWeek]` in MuteCore. -/
def WeekdayConfig.get (w : WeekdayConfig) : Weekday → String
  | .monday => w.monday
  | .tuesday => w.tuesday
  | .wednesday => w.wednesday
  | .thursday => w.thursday
  | .friday => w.friday
  | .saturday => w.saturday
  | .sunday => w.sunday

/-- `WeekGroup` in types.ts. -/
structure WeekGroup where
  name : String
  weekdays : WeekdayConfig
deriving DecidableEq

/-- `GroupConfig` in types.ts: per-entity policy. -/
structure GroupConfig where
  guildId : String
  enableHoliday : Bool
  holidayMuteGroup : String
  compensationMuteGroup : String
  defaultWeekGroup : String
deriving DecidableEq

/-- `HolidayCheckResult` in types.ts. -/
structure HolidayCheckResult where
  isHoliday : Bool
  isCompensationDay : Bool
  holidayName : Option String
deriving DecidableEq

/-- The holiday check method (`GlobalConfig.holidayMethod`). -/
inductive HolidayMethod
  | offline
  | online
  | hybrid
deriving DecidableEq

/-- `GlobalConfig` in types.ts. -/
structure GlobalConfig where
  holidayMethod : HolidayMethod
  muteGroups : List MuteGroup
  weekGroups : List WeekGroup
  groupConfigs : List GroupConfig
deriving DecidableEq

/-- `MuteCore.buildMaps` fills a JS `Map` by iterating the config list, so a
later entry with the same key overwrites an earlier one; lookup therefore
returns the last entry with the given name. -/
def getMuteGroup (cfg : GlobalConfig) (n : String) : Option MuteGroup :=
  cfg.muteGroups.reverse.find? (fun mg => mg.name == n)

/-- `MuteCore.getWeekGroup` via the same `Map` construction. -/
def getWeekGroup (cfg : GlobalConfig) (n : String) : Option WeekGroup :=
  cfg.weekGroups.reverse.find? (fun wg => wg.name == n)

/-- `MuteCore.getGroupConfig` via the same `Map` construction. -/
def getGroupConfig (cfg : GlobalConfig) (gid : String) : Option GroupConfig :=
  cfg.groupConfigs.reverse.find? (fun gc => gc.guildId == gid)

/-- `MuteCore.getApplicableMuteGroupName`: with holiday handling enabled,
compensation workdays take precedence, then holidays; otherwise the weekday
mapping of the configured week group is used.  A missing week group, or an
empty mapped name (`muteGroupName || 'default'`), degrades to the mute group
named "default". -/
def getApplicableMuteGroupName (cfg : GlobalConfig) (dow : Weekday)
    (gc : GroupConfig) (h : HolidayCheckResult) : String :=
  if gc.enableHoliday && h.isCompensationDay then
    gc.compensationMuteGroup
  else if gc.enableHoliday && h.isHoliday then
    gc.holidayMuteGroup
  else
    match getWeekGroup cfg gc.defaultWeekGroup with
    | none => "default"
    | some wg =>
      let n := wg.weekdays.get dow
      if n == "" then "default" else n

/-- `MuteCore.computeExpectedState`: resolve the applicable mute-group name,
look it up, and compute the expected state; a missing mute group or the
empty-rules throw inside `getExpectedState` yields `null` (here `none`) and the
entity is skipped. -/
def computeExpectedState (cfg : GlobalConfig) (minutes : Nat) (dow : Weekday)
    (gc : GroupConfig) (h : HolidayCheckResult) : Option ExpectedState :=
  match getMuteGroup cfg (getApplicableMuteGroupName cfg dow gc h) with
  | none => none
  | some mg => getExpectedState minutes mg

/-- C2: with holiday handling enabled, a compensation workday selects the
compensation mute group even when `isHoliday` is simultaneously true (the
first conjunct quantifies over both values of `isHoliday`); a holiday that is
not a compensation day selects the holiday mute group; in every other case
(in particular whenever `enableHoliday` is false) the name mapped to the
current weekday by the policy's week group is selected, provided that week
group exists and maps the day to a non-empty name. -/
theorem claim2_mute_group_precedence :
    ∀ (cfg : GlobalConfig) (dow : Weekday) (gc : GroupConfig)
      (h : HolidayCheckResult),
    (gc.enableHoliday = true → h.isCompensationDay = true →
      getApplicableMuteGroupName cfg dow gc h = gc.compensationMuteGroup) ∧
    (gc.enableHoliday = true → h.isHoliday = true → h.isCompensationDay = false →
      getApplicableMuteGroupName cfg dow gc h = gc.holidayMuteGroup) ∧
    (∀ wg, (gc.enableHoliday = false ∨
        (h.isCompensationDay = false ∧ h.isHoliday = false)) →
      getWeekGroup cfg gc.defaultWeekGroup = some wg →
      ¬ wg.weekdays.get dow = "" →
      getApplicableMuteGroupName cfg dow gc h = wg.weekdays.get dow) := by
  intro cfg dow gc h
  refine ⟨?_, ?_, ?_⟩
  · intro he hc
    simp [getApplicableMuteGroupName, he, hc]
  · intro he hh hc
    simp [getApplicableMuteGroupName, he, hh, hc]
  · intro wg hother hwg hne
    have hbranch : (gc.enableHoliday && h.isCompensationDay) = false ∧
        (gc.enableHoliday && h.isHoliday) = false := by
      rcases hother with he | ⟨hc, hh⟩
      · simp [he]
      · simp [hc, hh]
    rw [getApplicableMuteGroupName, if_neg (by simp [hbranch.1]),
      if_neg (by simp [hbranch.2]), hwg]
    simp [hne]

/-- Concrete configuration used by the C2 witness and the C3 counterexample:
one "default" mute group, no week groups for C3, a week group for C2. -/
def demoWeekGroup : WeekGroup :=
  ⟨"wk", ⟨"default", "default", "default", "default", "default", "weekend", "weekend"⟩⟩

/-- A configuration whose week-group index contains `demoWeekGroup`. -/
def demoConfig : GlobalConfig :=
  ⟨.hybrid, [demoGroup], [demoWeekGroup], [⟨"123", true, "holiday", "compensation", "wk"⟩]⟩

/-- Witness for C2 at a concrete policy: a compensation workday that is also
flagged as a holiday selects the compensation group; a pure holiday selects
the holiday group; with holiday handling active but neither flag set, Monday
maps to "default" through the week group. -/
theorem claim2_mute_group_precedence_witness :
    getApplicableMuteGroupName demoConfig .monday
      ⟨"123", true, "holiday", "compensation", "wk"⟩ ⟨true, true, none⟩ =
      "compensation" ∧
    getApplicableMuteGroupName demoConfig .monday
      ⟨"123", true, "holiday", "compensation", "wk"⟩ ⟨true, false, none⟩ =
      "holiday" ∧
    getApplicableMuteGroupName demoConfig .monday
      ⟨"123", true, "holiday", "compensation", "wk"⟩ ⟨false, false, none⟩ =
      "default" :=
  ⟨(claim2_mute_group_precedence demoConfig .monday
      ⟨"123", true, "holiday", "compensation", "wk"⟩ ⟨true, true, none⟩).1 rfl rfl,
   (claim2_mute_group_precedence demoConfig .monday
      ⟨"123", true, "holiday", "compensation", "wk"⟩ ⟨true, false, none⟩).2.1 rfl rfl rfl,
   (claim2_mute_group_precedence demoConfig .monday
      ⟨"123", true, "holiday", "compensation", "wk"⟩
      ⟨false, false, none⟩).2.2 demoWeekGroup (Or.inr ⟨rfl, rfl⟩) (by decide)
      (by decide)⟩

/-- A configuration with no week groups at all, but with the "default" mute
group present. -/
def cfgMissingWeek : GlobalConfig :=
  ⟨.hybrid, [demoGroup], [], [⟨"123", false, "holiday", "compensation", "missing-week"⟩]⟩

/-- A configuration with no mute groups and no week groups. -/
def cfgEmpty : GlobalConfig := ⟨.hybrid, [], [], []⟩

/-- C3 counterexample: the policy references the week group "missing-week",
which does not exist in the index, yet `computeExpectedState` succeeds by
silently substituting the mute group named "default" instead of failing — the
claim that a missing WeekdaySchedule reference makes the computation fail
(never silently substituting a different rule group) is false on this code. -/
theorem claim3_counterexample :
    getWeekGroup cfgMissingWeek "missing-week" = none ∧
    computeExpectedState cfgMissingWeek 540 .monday
      ⟨"123", false, "holiday", "compensation", "missing-week"⟩
      ⟨false, false, none⟩ = some ⟨true, 420, "default", false⟩ := by
  decide

/-- C3 amended: a missing referenced mute group (rule group) does make the
computation fail (`none`, the entity is skipped), as does an empty rule list;
but a missing referenced WeekdaySchedule does not fail: the code silently
falls back to the mute-group name "default", and only fails if that group is
missing too. -/
theorem claim3_missing_reference_handling :
    ∀ (cfg : GlobalConfig) (minutes : Nat) (dow : Weekday) (gc : GroupConfig)
      (h : HolidayCheckResult),
    (getMuteGroup cfg (getApplicableMuteGroupName cfg dow gc h) = none →
      computeExpectedState cfg minutes dow gc h = none) ∧
    (∀ mg, getMuteGroup cfg (getApplicableMuteGroupName cfg dow gc h) = some mg →
      mg.rules = [] → computeExpectedState cfg minutes dow gc h = none) ∧
    ((gc.enableHoliday && h.isCompensationDay) = false →
      (gc.enableHoliday && h.isHoliday) = false →
      getWeekGroup cfg gc.defaultWeekGroup = none →
      getApplicableMuteGroupName cfg dow gc h = "default") := by
  intro cfg minutes dow gc h
  refine ⟨?_, ?_, ?_⟩
  · intro hnone
    rw [computeExpectedState, hnone]
  · intro mg hsome hempty
    rw [computeExpectedState, hsome]
    exact (getExpectedState_eq_none_iff minutes mg).mpr hempty
  · intro hc hh hwk
    rw [getApplicableMuteGroupName, if_neg (by simp [hc]), if_neg (by simp [hh]),
      hwk]

/-- Witness for the amended C3: with an empty index every reference is
missing, the applicable name degrades to "default" and the computation fails
with `none`. -/
theorem claim3_missing_reference_handling_witness :
    getApplicableMuteGroupName cfgEmpty .monday
      ⟨"123", false, "holiday", "compensation", "missing-week"⟩
      ⟨false, false, none⟩ = "default" ∧
    computeExpectedState cfgEmpty 540 .monday
      ⟨"123", false, "holiday", "compensation", "missing-week"⟩
      ⟨false, false, none⟩ = none :=
  ⟨(claim3_missing_reference_handling cfgEmpty 540 .monday
      ⟨"123", false, "holiday", "compensation", "missing-week"⟩
      ⟨false, false, none⟩).2.2 rfl rfl rfl,
   (claim3_missing_reference_handling cfgEmpty 540 .monday
      ⟨"123", false, "holiday", "compensation", "missing-week"⟩
      ⟨false, false, none⟩).1 rfl⟩

/-- The observable result of `setGroupMute`: the two early returns (warn and
return, nothing thrown), a successful backend call, or the final
`throw lastError` after every backend failed. -/
inductive SetMuteResult
  | skippedInvalidGuild
  | skippedNoBackend
  | success
  | thrown (lastError : String)
deriving DecidableEq

/-- Did the call raise to its caller? -/
def SetMuteResult.throws : SetMuteResult → Bool
  | .thrown _ => true
  | _ => false

/-- Result of `setGroupMute` together with how many backend
`setGroupWholeBan` attempts were made. -/
structure SetMuteOutcome where
  result : SetMuteResult
  attempts : Nat
deriving DecidableEq

/-- The backend loop of `setGroupMute`: each registered OneBot backend either
succeeds (`none`) or fails with an error (`some e`); the first success wins,
each failure updates `lastError`, and exhausting the list throws the last
error (`throw lastError ?? new Error(...)`). -/
def setMuteLoop : List (Option String) → Option String → Nat → SetMuteOutcome
  | [], lastError, n => ⟨.thrown (lastError.getD "setGroupWholeBan failed"), n⟩
  | none :: _, _, n => ⟨.success, n + 1⟩
  | some e :: rest, _, n => setMuteLoop rest (some e) (n + 1)

/-- `setGroupMute` (multi-backend version): a non-numeric guild id or an empty
backend list logs a warning and returns without attempting or throwing;
otherwise the backends are tried in order. -/
def setGroupMute (numericGuild : Bool) (backends : List (Option String)) :
    SetMuteOutcome :=
  if numericGuild = false then ⟨.skippedInvalidGuild, 0⟩
  else if backends.isEmpty then ⟨.skippedNoBackend, 0⟩
  else setMuteLoop backends none 0

/-- One row of the `mute_states` table (`MuteState` in types.ts). -/
structure MuteStateRow where
  guildId : String
  isMuted : Bool
  lastUpdated : Int
  appliedMuteGroup : String
deriving DecidableEq

/-- The observable effect of one `reconcileMuteState` call: the persisted row
afterwards, how many times the external action (`executeGroupMute`) was
invoked, how many persistence writes happened, whether the call returned early
because the state was already aligned, and whether a notification was sent. -/
structure ReconcileResult where
  db : Option MuteStateRow
  actionCalls : Nat
  dbWrites : Nat
  unchanged : Bool
  notified : Bool
deriving DecidableEq

/-- `MuteCore.reconcileMuteState`: read the persisted row
(`currentIsMuted = dbState?.isMuted ?? null`); if it equals the expected
muted flag, return without acting; otherwise invoke `setGroupMute` — if that
throws, the outer catch leaves the persisted row untouched; on success the new
row is written (`updateMuteState`) and, when the configured guild id is truthy
and the mute group that produced the state has `sendNotification`, the
notification is sent after the write. -/
def reconcileMuteState (cfg : GlobalConfig) (guildId : String) (gc : GroupConfig)
    (expected : ExpectedState) (db0 : Option MuteStateRow) (nowMs : Int)
    (numericGuild : Bool) (backends : List (Option String)) : ReconcileResult :=
  let currentIsMuted : Option Bool := db0.map (fun r => r.isMuted)
  if currentIsMuted = some expected.isMuted then
    ⟨db0, 0, 0, true, false⟩
  else
    let action := setGroupMute numericGuild backends
    if action.result.throws then
      ⟨db0, 1, 0, false, false⟩
    else
      let newDb := some ⟨guildId, expected.isMuted, nowMs, expected.muteGroupName⟩
      let notified := gc.guildId != "" &&
        (match getMuteGroup cfg expected.muteGroupName with
         | some mg => mg.sendNotification
         | none => false)
      ⟨newDb, 1, 1, false, notified⟩

theorem reconcileMuteState_aligned (cfg : GlobalConfig) (guildId : String)
    (gc : GroupConfig) (expected : ExpectedState) (db0 : Option MuteStateRow)
    (nowMs : Int) (numericGuild : Bool) (backends : List (Option String))
    (h : db0.map (fun r => r.isMuted) = some expected.isMuted) :
    reconcileMuteState cfg guildId gc expected db0 nowMs numericGuild backends =
      ⟨db0, 0, 0, true, false⟩ := by
  rw [reconcileMuteState, if_pos h]

theorem reconcileMuteState_mismatch_throws (cfg : GlobalConfig)
    (guildId : String) (gc : GroupConfig) (expected : ExpectedState)
    (db0 : Option MuteStateRow) (nowMs : Int) (numericGuild : Bool)
    (backends : List (Option String))
    (h : ¬ db0.map (fun r => r.isMuted) = some expected.isMuted)
    (ht : (setGroupMute numericGuild backends).result.throws = true) :
    reconcileMuteState cfg guildId gc expected db0 nowMs numericGuild backends =
      ⟨db0, 1, 0, false, false⟩ := by
  rw [reconcileMuteState, if_neg h]
  simp [ht]

theorem reconcileMuteState_mismatch_ok (cfg : GlobalConfig) (guildId : String)
    (gc : GroupConfig) (expected : ExpectedState) (db0 : Option MuteStateRow)
    (nowMs : Int) (numericGuild : Bool) (backends : List (Option String))
    (h : ¬ db0.map (fun r => r.isMuted) = some expected.isMuted)
    (ht : (setGroupMute numericGuild backends).result.throws = false) :
    reconcileMuteState cfg guildId gc expected db0 nowMs numericGuild backends =
      ⟨some ⟨guildId, expected.isMuted, nowMs, expected.muteGroupName⟩, 1, 1, false,
       gc.guildId != "" &&
         (match getMuteGroup cfg expected.muteGroupName with
          | some mg => mg.sendNotification
          | none => false)⟩ := by
  rw [reconcileMuteState, if_neg h]
  simp [ht]

/-- First reconcile call of the C4 counterexample: persisted state already
matches the expected state (`isMuted = true`). -/
def c4Recon1 : ReconcileResult :=
  reconcileMuteState cfgEmpty "123" ⟨"123", false, "holiday", "compensation", "wk"⟩
    ⟨true, 420, "default", false⟩ (some ⟨"123", true, 0, "default"⟩) 0 true [none]

/-- Second reconcile call of the C4 counterexample, fed the persisted state
left by the first. -/
def c4Recon2 : ReconcileResult :=
  reconcileMuteState cfgEmpty "123" ⟨"123", false, "holiday", "compensation", "wk"⟩
    ⟨true, 420, "default", false⟩ c4Recon1.db 0 true [none]

/-- C4 counterexample: when the persisted state already matches the expected
state, two consecutive `reconcileMuteState` calls perform zero external action
invocations and zero persistence writes in total — not "exactly one" as the
claim states for every entity and expected state. -/
theorem claim4_counterexample :
    c4Recon1.actionCalls + c4Recon2.actionCalls = 0 ∧
    c4Recon1.dbWrites + c4Recon2.dbWrites = 0 ∧
    ¬ (c4Recon1.actionCalls + c4Recon2.actionCalls = 1 ∧
       c4Recon1.dbWrites + c4Recon2.dbWrites = 1) := by
  decide

/-- C4 amended: provided the external action does not throw, two consecutive
`reconcileMuteState` calls with no intervening external-state change perform
at most one action invocation and at most one persistence write in total —
exactly one of each when the initial persisted state does not already match
the expected state — and the second call is a no-op that reports the state as
unchanged and leaves the persisted row exactly as the first call left it. -/
theorem claim4_reconcile_idempotent :
    ∀ (cfg : GlobalConfig) (guildId : String) (gc : GroupConfig)
      (expected : ExpectedState) (db0 : Option MuteStateRow) (nowMs nowMs2 : Int)
      (numericGuild : Bool) (backends : List (Option String)) (r1 r2 : ReconcileResult),
    (setGroupMute numericGuild backends).result.throws = false →
    r1 = reconcileMuteState cfg guildId gc expected db0 nowMs numericGuild backends →
    r2 = reconcileMuteState cfg guildId gc expected r1.db nowMs2 numericGuild backends →
    r2.unchanged = true ∧ r2.actionCalls = 0 ∧ r2.dbWrites = 0 ∧ r2.db = r1.db ∧
    r1.actionCalls + r2.actionCalls ≤ 1 ∧ r1.dbWrites + r2.dbWrites ≤ 1 ∧
    (db0.map (fun r => r.isMuted) ≠ some expected.isMuted →
      r1.actionCalls + r2.actionCalls = 1 ∧ r1.dbWrites + r2.dbWrites = 1) := by
  intro cfg guildId gc expected db0 nowMs nowMs2 numericGuild backends r1 r2
  intro hok hr1 hr2
  by_cases ha : db0.map (fun r => r.isMuted) = some expected.isMuted
  · rw [reconcileMuteState_aligned _ _ _ _ _ _ _ _ ha] at hr1
    rw [hr1] at hr2
    rw [reconcileMuteState_aligned _ _ _ _ _ _ _ _ ha] at hr2
    subst hr1
    subst hr2
    exact ⟨rfl, rfl, rfl, rfl, by simp, by simp, fun hc => absurd ha hc⟩
  · rw [reconcileMuteState_mismatch_ok _ _ _ _ _ _ _ _ ha hok] at hr1
    have ha2 : (some (⟨guildId, expected.isMuted, nowMs, expected.muteGroupName⟩ :
        MuteStateRow)).map (fun r => r.isMuted) = some expected.isMuted := rfl
    rw [hr1] at hr2
    dsimp only at hr2
    rw [reconcileMuteState_aligned _ _ _ _ _ _ _ _ ha2] at hr2
    subst hr1
    subst hr2
    exact ⟨rfl, rfl, rfl, rfl, by simp, by simp, fun _ => ⟨rfl, rfl⟩⟩

/-- First reconcile call of the C4 witness: no persisted row, so a transition
is forced. -/
def c4wRecon1 : ReconcileResult :=
  reconcileMuteState cfgEmpty "123" ⟨"123", false, "holiday", "compensation", "wk"⟩
    ⟨true, 420, "default", false⟩ none 0 true [none]

/-- Second reconcile call of the C4 witness. -/
def c4wRecon2 : ReconcileResult :=
  reconcileMuteState cfgEmpty "123" ⟨"123", false, "holiday", "compensation", "wk"⟩
    ⟨true, 420, "default", false⟩ c4wRecon1.db 1 true [none]

/-- Witness for the amended C4 at a concrete mismatched starting state. -/
theorem claim4_reconcile_idempotent_witness :
    c4wRecon2.unchanged = true ∧ c4wRecon2.actionCalls = 0 ∧
    c4wRecon2.dbWrites = 0 ∧ c4wRecon2.db = c4wRecon1.db ∧
    c4wRecon1.actionCalls + c4wRecon2.actionCalls ≤ 1 ∧
    c4wRecon1.dbWrites + c4wRecon2.dbWrites ≤ 1 ∧
    ((none : Option MuteStateRow).map (fun r => r.isMuted) ≠ some true →
      c4wRecon1.actionCalls + c4wRecon2.actionCalls = 1 ∧
      c4wRecon1.dbWrites + c4wRecon2.dbWrites = 1) :=
  claim4_reconcile_idempotent cfgEmpty "123"
    ⟨"123", false, "holiday", "compensation", "wk"⟩
    ⟨true, 420, "default", false⟩ none 0 1 true [none] c4wRecon1 c4wRecon2
    (by decide) rfl rfl

theorem setMuteLoop_all_some (es : List String) (hne : es ≠ []) :
    ∃ e, es.getLast? = some e ∧
      ∀ (acc : Option String) (n : Nat),
        setMuteLoop (es.map Option.some) acc n = ⟨.thrown e, n + es.length⟩ := by
  induction es with
  | nil => exact absurd rfl hne
  | cons a as ih =>
    cases as with
    | nil => exact ⟨a, rfl, fun acc n => rfl⟩
    | cons b bs =>
      obtain ⟨e, hlast, hloop⟩ := ih (by simp)
      refine ⟨e, ?_, fun acc n => ?_⟩
      · rw [List.getLast?_cons_cons]
        exact hlast
      · have hstep : setMuteLoop ((a :: b :: bs).map Option.some) acc n =
            setMuteLoop ((b :: bs).map Option.some) (some a) (n + 1) := rfl
        rw [hstep, hloop (some a) (n + 1)]
        have harith : n + 1 + (b :: bs).length = n + (a :: b :: bs).length := by
          simp [List.length_cons]
          omega
        rw [harith]

/-- C5: when every registered backend's mute attempt fails, `setGroupMute`
throws the last backend's error after attempting every backend, and
`reconcileMuteState` leaves the persisted state exactly as it was before the
call with zero persistence writes — so the next heartbeat tick sees the same
mismatch and re-attempts the transition. -/
theorem claim5_persist_only_after_success :
    ∀ (es : List String) (cfg : GlobalConfig) (guildId : String)
      (gc : GroupConfig) (expected : ExpectedState)
      (db0 : Option MuteStateRow) (nowMs : Int),
    es ≠ [] →
    ∃ e, es.getLast? = some e ∧
      (setGroupMute true (es.map Option.some)).result = SetMuteResult.thrown e ∧
      (setGroupMute true (es.map Option.some)).attempts = es.length ∧
      (reconcileMuteState cfg guildId gc expected db0 nowMs true
        (es.map Option.some)).db = db0 ∧
      (reconcileMuteState cfg guildId gc expected db0 nowMs true
        (es.map Option.some)).dbWrites = 0 := by
  intro es cfg guildId gc expected db0 nowMs hne
  obtain ⟨e, hlast, hloop⟩ := setMuteLoop_all_some es hne
  have hmapne : es.map Option.some ≠ [] := by
    intro hc
    exact hne (List.map_eq_nil_iff.mp hc)
  have hset : setGroupMute true (es.map Option.some) =
      ⟨.thrown e, es.length⟩ := by
    rw [setGroupMute, if_neg (by simp), if_neg (by simp [List.isEmpty_iff, hmapne])]
    rw [hloop none 0]
    simp
  refine ⟨e, hlast, by rw [hset], by rw [hset], ?_, ?_⟩
  · by_cases ha : db0.map (fun r => r.isMuted) = some expected.isMuted
    · rw [reconcileMuteState_aligned _ _ _ _ _ _ _ _ ha]
    · rw [reconcileMuteState_mismatch_throws _ _ _ _ _ _ _ _ ha
        (by rw [hset]; rfl)]
  · by_cases ha : db0.map (fun r => r.isMuted) = some expected.isMuted
    · rw [reconcileMuteState_aligned _ _ _ _ _ _ _ _ ha]
    · rw [reconcileMuteState_mismatch_throws _ _ _ _ _ _ _ _ ha
        (by rw [hset]; rfl)]

/-- Witness for C5: two backends that both fail; the second one's error is
surfaced and the persisted row is untouched. -/
theorem claim5_persist_only_after_success_witness :
    ["net down", "timeout"] ≠ ([] : List String) ∧
    ∃ e, (["net down", "timeout"] : List String).getLast? = some e ∧
      (setGroupMute true (["net down", "timeout"].map Option.some)).result =
        SetMuteResult.thrown e ∧
      (setGroupMute true (["net down", "timeout"].map Option.some)).attempts =
        (["net down", "timeout"] : List String).length ∧
      (reconcileMuteState cfgEmpty "123"
        ⟨"123", false, "holiday", "compensation", "wk"⟩
        ⟨true, 420, "default", false⟩ none 0 true
        (["net down", "timeout"].map Option.some)).db = none ∧
      (reconcileMuteState cfgEmpty "123"
        ⟨"123", false, "holiday", "compensation", "wk"⟩
        ⟨true, 420, "default", false⟩ none 0 true
        (["net down", "timeout"].map Option.some)).dbWrites = 0 :=
  ⟨by decide,
   claim5_persist_only_after_success ["net down", "timeout"] cfgEmpty "123"
     ⟨"123", false, "holiday", "compensation", "wk"⟩
     ⟨true, 420, "default", false⟩ none 0 (by decide)⟩

/-- C10: a non-numeric guild id, or an empty OneBot backend list, makes
`setGroupMute` return normally with zero backend attempts and nothing thrown;
consequently, when the persisted state differs from the expected one,
`reconcileMuteState` still proceeds to write the new persisted state (and
evaluates the notification condition) even though no real-world mute action
was performed. -/
theorem claim10_skip_paths_still_persist :
    ∀ (cfg : GlobalConfig) (guildId : String) (gc : GroupConfig)
      (expected : ExpectedState) (db0 : Option MuteStateRow) (nowMs : Int)
      (numericGuild : Bool) (backends : List (Option String)),
    (numericGuild = false →
      setGroupMute numericGuild backends = ⟨.skippedInvalidGuild, 0⟩) ∧
    (numericGuild = true → backends = [] →
      setGroupMute numericGuild backends = ⟨.skippedNoBackend, 0⟩) ∧
    ((numericGuild = false ∨ backends = []) →
      db0.map (fun r => r.isMuted) ≠ some expected.isMuted →
      reconcileMuteState cfg guildId gc expected db0 nowMs numericGuild backends =
        ⟨some ⟨guildId, expected.isMuted, nowMs, expected.muteGroupName⟩, 1, 1,
         false,
         gc.guildId != "" &&
           (match getMuteGroup cfg expected.muteGroupName with
            | some mg => mg.sendNotification
            | none => false)⟩) := by
  intro cfg guildId gc expected db0 nowMs numericGuild backends
  refine ⟨?_, ?_, ?_⟩
  · intro h
    rw [setGroupMute, if_pos h]
  · intro h hb
    rw [setGroupMute, if_neg (by rw [h]; simp), if_pos (by rw [hb]; rfl)]
  · intro hskip hmis
    have hthrows : (setGroupMute numericGuild backends).result.throws = false := by
      rcases hskip with h | h
      · rw [setGroupMute, if_pos h]
        rfl
      · cases hn : numericGuild with
        | false =>
          rw [setGroupMute, if_pos rfl]
          rfl
        | true =>
          rw [setGroupMute, if_neg (by simp), if_pos (by rw [h]; rfl)]
          rfl
    exact reconcileMuteState_mismatch_ok cfg guildId gc expected db0 nowMs
      numericGuild backends hmis hthrows

/-- Witness for C10: non-numeric guild id and empty backend list at a
concrete entity with a mismatched persisted state. -/
theorem claim10_skip_paths_still_persist_witness :
    setGroupMute false [some "err"] = ⟨.skippedInvalidGuild, 0⟩ ∧
    setGroupMute true ([] : List (Option String)) = ⟨.skippedNoBackend, 0⟩ ∧
    reconcileMuteState cfgEmpty "abc"
      ⟨"abc", false, "holiday", "compensation", "wk"⟩
      ⟨true, 420, "default", false⟩ none 0 false [some "err"] =
      ⟨some ⟨"abc", true, 0, "default"⟩, 1, 1, false, false⟩ :=
  ⟨(claim10_skip_paths_still_persist cfgEmpty "abc"
      ⟨"abc", false, "holiday", "compensation", "wk"⟩
      ⟨true, 420, "default", false⟩ none 0 false [some "err"]).1 rfl,
   (claim10_skip_paths_still_persist cfgEmpty "abc"
      ⟨"abc", false, "holiday", "compensation", "wk"⟩
      ⟨true, 420, "default", false⟩ none 0 true []).2.1 rfl rfl,
   (claim10_skip_paths_still_persist cfgEmpty "abc"
      ⟨"abc", false, "holiday", "compensation", "wk"⟩
      ⟨true, 420, "default", false⟩ none 0 false [some "err"]).2.2
      (Or.inl rfl) (by decide)⟩

/-- The `getDayDetail` result consulted by `checkHolidayOffline`: a possible
name and the `work` flag. -/
structure DayDetail where
  name : Option String
  work : Bool
deriving DecidableEq

/-- The dynamically probed chinese-days module: `checkHolidayOffline` checks
that `isHoliday`/`isInLieu` are functions (else it throws into its own catch)
and optionally consults `getDayDetail`.  The date argument is identified with
its `formatDate` key. -/
structure ChineseDaysApi where
  hasIsHoliday : Bool
  hasIsInLieu : Bool
  isHolidayF : String → Bool
  isInLieuF : String → Bool
  dayDetailF : Option (String → Option DayDetail)

/-- `checkHolidayOffline` (part_002): a missing module, or a module without
the `isHoliday`/`isInLieu` functions (the in-function throw, swallowed by the
catch), degrades to "normal day"; otherwise the module's answers are
returned, with the holiday name taken only from a detail that has a non-empty
name and `work = false`. -/
def checkHolidayOffline (mod : Option ChineseDaysApi) (dateStr : String) :
    HolidayCheckResult :=
  match mod with
  | none => ⟨false, false, none⟩
  | some api =>
    if api.hasIsHoliday && api.hasIsInLieu then
      let hname :=
        match api.dayDetailF with
        | none => none
        | some f =>
          match f dateStr with
          | none => none
          | some d =>
            match d.name with
            | none => none
            | some s => if s != "" && !d.work then some s else none
      ⟨api.isHolidayF dateStr, api.isInLieuF dateStr, hname⟩
    else ⟨false, false, none⟩

/-- One normalized entry of the yearly online holiday table. -/
structure OnlineDay where
  date : String
  isOffDay : Bool
  name : Option String
deriving DecidableEq

/-- The candidate years probed by `checkHolidayOnline`: a December date
(month index 11) also probes the next year, a January date (month index 0)
also probes the previous year, in insertion order of the JS `Set`. -/
def candidateYears (year : Int) (month : Nat) : List Int :=
  if month = 11 then [year, year + 1]
  else if month = 0 then [year, year - 1]
  else [year]

/-- The candidate-year loop of `checkHolidayOnline`: non-positive years are
skipped, a failing yearly fetch propagates (rethrown by the outer catch), the
first table containing the date determines the classification
(`isHoliday = isOffDay`, `isCompensationDay = !isOffDay`), and exhausting all
candidates yields "normal day".  `fetchYear` stands for
`fetchHolidayYearFromApi` (network plus its module-level 12h year cache). -/
def onlineScan (fetchYear : Int → Except String (List OnlineDay))
    (dateStr : String) : List Int → Except String HolidayCheckResult
  | [] => Except.ok ⟨false, false, none⟩
  | y :: rest =>
    if y ≤ 0 then onlineScan fetchYear dateStr rest
    else
      match fetchYear y with
      | .error e => .error e
      | .ok days =>
        match days.find? (fun d => d.date == dateStr) with
        | some d => .ok ⟨d.isOffDay, !d.isOffDay, d.name⟩
        | none => onlineScan fetchYear dateStr rest

/-- `checkHolidayOnline` (part_002). -/
def checkHolidayOnline (fetchYear : Int → Except String (List OnlineDay))
    (year : Int) (month : Nat) (dateStr : String) :
    Except String HolidayCheckResult :=
  onlineScan fetchYear dateStr (candidateYears year month)

/-- `CACHE_DURATION`: 24 hours in milliseconds. -/
def CACHE_DURATION : Int := 24 * 60 * 60 * 1000

/-- Keyed lookup in an association-list model of a JS `Map` (the most recent
`set` for a key is found first). -/
def mapGet {β : Type} (l : List (String × β)) (k : String) : Option β :=
  (l.find? (fun p => p.1 == k)).map (fun p => p.2)

/-- `Map.set`: the new binding shadows any previous binding of the key. -/
def mapSet {β : Type} (l : List (String × β)) (k : String) (v : β) :
    List (String × β) :=
  (k, v) :: l.filter (fun p => !(p.1 == k))

/-- `Map.delete`. -/
def mapDel {β : Type} (l : List (String × β)) (k : String) :
    List (String × β) :=
  l.filter (fun p => !(p.1 == k))

/-- The module-level per-day hybrid cache: `holidayCache` and
`cacheTimestamp`, keyed by the `YYYY-MM-DD` string. -/
structure HolidayCache where
  entries : List (String × HolidayCheckResult)
  stamps : List (String × Int)

/-- The try/catch tail of `checkHolidayHybrid`: try online; on success cache
the result with the current timestamp and return it; on failure fall back to
offline without touching the cache. -/
def hybridFetch (mod : Option ChineseDaysApi)
    (fetchYear : Int → Except String (List OnlineDay)) (year : Int)
    (month : Nat) (dateStr : String) (nowMs : Int) (cache : HolidayCache) :
    HolidayCheckResult × HolidayCache :=
  match checkHolidayOnline fetchYear year month dateStr with
  | .ok r =>
    (r, ⟨mapSet cache.entries dateStr r, mapSet cache.stamps dateStr nowMs⟩)
  | .error _ => (checkHolidayOffline mod dateStr, cache)

/-- `checkHolidayHybrid` (part_002): a cached entry younger than 24h is
returned as is; an expired entry is deleted first; then online-with-caching,
falling back to offline on failure. -/
def checkHolidayHybrid (mod : Option ChineseDaysApi)
    (fetchYear : Int → Except String (List OnlineDay)) (year : Int)
    (month : Nat) (dateStr : String) (nowMs : Int) (cache : HolidayCache) :
    HolidayCheckResult × HolidayCache :=
  match mapGet cache.entries dateStr with
  | some cached =>
    if nowMs - ((mapGet cache.stamps dateStr).getD 0) < CACHE_DURATION then
      (cached, cache)
    else
      hybridFetch mod fetchYear year month dateStr nowMs
        ⟨mapDel cache.entries dateStr, mapDel cache.stamps dateStr⟩
  | none => hybridFetch mod fetchYear year month dateStr nowMs cache

/-- `checkHoliday` (part_002): dispatch on the configured method.  Only the
online path can raise. -/
def checkHoliday (method : HolidayMethod) (mod : Option ChineseDaysApi)
    (fetchYear : Int → Except String (List OnlineDay)) (year : Int)
    (month : Nat) (dateStr : String) (nowMs : Int) (cache : HolidayCache) :
    Except String (HolidayCheckResult × HolidayCache) :=
  match method with
  | .offline => .ok (checkHolidayOffline mod dateStr, cache)
  | .online =>
    match checkHolidayOnline fetchYear year month dateStr with
    | .error e => .error e
    | .ok r => .ok (r, cache)
  | .hybrid =>
    .ok (checkHolidayHybrid mod fetchYear year month dateStr nowMs cache)

/-- Does the hybrid cache hold a still-valid entry for the date? (The guard
at the top of `checkHolidayHybrid`.) -/
def cacheHasValid (cache : HolidayCache) (dateStr : String) (nowMs : Int) :
    Bool :=
  match mapGet cache.entries dateStr with
  | none => false
  | some _ =>
    decide (nowMs - ((mapGet cache.stamps dateStr).getD 0) < CACHE_DURATION)

theorem mapGet_mapDel_self {β : Type} (l : List (String × β)) (k : String) :
    mapGet (mapDel l k) k = none := by
  induction l with
  | nil => rfl
  | cons p ps ih =>
    cases h : (p.1 == k) with
    | true =>
      simp only [mapDel, mapGet, List.filter_cons, h, Bool.not_true, if_false,
        Bool.false_eq_true, ite_false] at ih ⊢
      exact ih
    | false =>
      simp only [mapDel, mapGet, List.filter_cons, h, Bool.not_false, if_true,
        ite_true, List.find?_cons_of_neg, Bool.true_eq_false] at ih ⊢
      rw [List.find?_cons_of_neg _ (by simp [h])]
      exact ih

theorem mapGet_mapSet_self {β : Type} (l : List (String × β)) (k : String)
    (v : β) : mapGet (mapSet l k v) k = some v := by
  simp [mapGet, mapSet, List.find?_cons]

/-- C7: in hybrid mode, when no valid cached entry exists for the date: an
online failure makes `checkHolidayHybrid` return exactly the offline
classification for that date, with no cache entry recorded for it (failures
are not cached); an online success returns the online result and caches it
with the current timestamp, the cache validity window being 24 hours
(86400000 ms).  `checkHoliday` in hybrid mode always returns `ok`, so the
failure never raises to the caller. -/
theorem claim7_hybrid_fallback :
    ∀ (mod : Option ChineseDaysApi)
      (fetchYear : Int → Except String (List OnlineDay)) (year : Int)
      (month : Nat) (dateStr : String) (nowMs : Int) (cache : HolidayCache),
    cacheHasValid cache dateStr nowMs = false →
    ((∀ e, checkHolidayOnline fetchYear year month dateStr = .error e →
       (checkHolidayHybrid mod fetchYear year month dateStr nowMs cache).1 =
         checkHolidayOffline mod dateStr ∧
       mapGet (checkHolidayHybrid mod fetchYear year month dateStr nowMs
         cache).2.entries dateStr = none) ∧
     (∀ r, checkHolidayOnline fetchYear year month dateStr = .ok r →
       (checkHolidayHybrid mod fetchYear year month dateStr nowMs cache).1 = r ∧
       mapGet (checkHolidayHybrid mod fetchYear year month dateStr nowMs
         cache).2.entries dateStr = some r ∧
       mapGet (checkHolidayHybrid mod fetchYear year month dateStr nowMs
         cache).2.stamps dateStr = some nowMs) ∧
     checkHoliday .hybrid mod fetchYear year month dateStr nowMs cache =
       .ok (checkHolidayHybrid mod fetchYear year month dateStr nowMs cache)) ∧
    CACHE_DURATION = 86400000 := by
  intro mod fetchYear year month dateStr nowMs cache hvalid
  have hhyb : checkHolidayHybrid mod fetchYear year month dateStr nowMs cache =
      hybridFetch mod fetchYear year month dateStr nowMs
        ⟨mapDel cache.entries dateStr, mapDel cache.stamps dateStr⟩ ∨
      (checkHolidayHybrid mod fetchYear year month dateStr nowMs cache =
        hybridFetch mod fetchYear year month dateStr nowMs cache ∧
        mapGet cache.entries dateStr = none) := by
    rw [checkHolidayHybrid]
    cases hentry : mapGet cache.entries dateStr with
    | none => exact Or.inr ⟨rfl, rfl⟩
    | some c =>
      left
      rw [cacheHasValid, hentry] at hvalid
      dsimp only at hvalid ⊢
      rw [if_neg]
      intro hc
      rw [decide_eq_true hc] at hvalid
      exact Bool.noConfusion hvalid
  refine ⟨⟨?_, ?_, rfl⟩, rfl⟩
  · intro e herr
    rcases hhyb with hh | ⟨hh, hentry⟩
    · rw [hh, hybridFetch, herr]
      exact ⟨rfl, mapGet_mapDel_self _ _⟩
    · rw [hh, hybridFetch, herr]
      exact ⟨rfl, hentry⟩
  · intro r hok
    rcases hhyb with hh | ⟨hh, _⟩
    · rw [hh, hybridFetch, hok]
      exact ⟨rfl, mapGet_mapSet_self _ _ _, mapGet_mapSet_self _ _ _⟩
    · rw [hh, hybridFetch, hok]
      exact ⟨rfl, mapGet_mapSet_self _ _ _, mapGet_mapSet_self _ _ _⟩

/-- Witness for C7: an empty cache and an always-failing online fetch on
2024-05-01; hybrid returns the offline classification (here the
chinese-days-missing default) and caches nothing. -/
theorem claim7_hybrid_fallback_witness :
    cacheHasValid ⟨[], []⟩ "2024-05-01" 0 = false ∧
    (checkHolidayHybrid none (fun _ => Except.error "down") 2024 4 "2024-05-01"
      0 ⟨[], []⟩).1 = checkHolidayOffline none "2024-05-01" ∧
    mapGet (checkHolidayHybrid none (fun _ => Except.error "down") 2024 4
      "2024-05-01" 0 ⟨[], []⟩).2.entries "2024-05-01" = none :=
  ⟨rfl,
   ((claim7_hybrid_fallback none (fun _ => Except.error "down") 2024 4
      "2024-05-01" 0 ⟨[], []⟩ rfl).1.1 "down" rfl).1,
   ((claim7_hybrid_fallback none (fun _ => Except.error "down") 2024 4
      "2024-05-01" 0 ⟨[], []⟩ rfl).1.1 "down" rfl).2⟩

theorem onlineScan_cons (fetchYear : Int → Except String (List OnlineDay))
    (dateStr : String) (y : Int) (rest : List Int) :
    onlineScan fetchYear dateStr (y :: rest) =
      if y ≤ 0 then onlineScan fetchYear dateStr rest
      else
        match fetchYear y with
        | .error e => .error e
        | .ok days =>
          match days.find? (fun d => d.date == dateStr) with
          | some d => .ok ⟨d.isOffDay, !d.isOffDay, d.name⟩
          | none => onlineScan fetchYear dateStr rest := by
  rw [onlineScan]

/-- C8: a December date (month index 11) probes the current year's table and
then the next year's; a January date (month index 0) probes the current
year's and then the previous year's; the first table containing the date
determines the classification.  Consequently, a Dec 31 whose record exists
only in the next year's table and is not an off-day (`isOffDay = false`) is
classified as a compensation workday. -/
theorem claim8_year_boundary_probe :
    (∀ year : Int, candidateYears year 11 = [year, year + 1] ∧
      candidateYears year 0 = [year, year - 1]) ∧
    (∀ (fetchYear : Int → Except String (List OnlineDay)) (year : Int)
       (month : Nat) (dateStr : String) (days : List OnlineDay) (d : OnlineDay),
      0 < year → fetchYear year = .ok days →
      days.find? (fun x => x.date == dateStr) = some d →
      checkHolidayOnline fetchYear year month dateStr =
        .ok ⟨d.isOffDay, !d.isOffDay, d.name⟩) ∧
    (∀ (fetchYear : Int → Except String (List OnlineDay)) (year : Int)
       (dateStr : String) (days1 days2 : List OnlineDay) (d : OnlineDay),
      0 < year → fetchYear year = .ok days1 →
      days1.find? (fun x => x.date == dateStr) = none →
      fetchYear (year + 1) = .ok days2 →
      days2.find? (fun x => x.date == dateStr) = some d →
      checkHolidayOnline fetchYear year 11 dateStr =
        .ok ⟨d.isOffDay, !d.isOffDay, d.name⟩ ∧
      (d.isOffDay = false →
        (HolidayCheckResult.mk d.isOffDay (!d.isOffDay) d.name).isCompensationDay
          = true)) := by
  refine ⟨?_, ?_, ?_⟩
  · intro year
    constructor
    · rw [candidateYears, if_pos rfl]
    · rw [candidateYears, if_neg (by decide), if_pos rfl]
  · intro fetchYear year month dateStr days d hy hfetch hfind
    have hstep : ∀ rest : List Int,
        onlineScan fetchYear dateStr (year :: rest) =
          .ok ⟨d.isOffDay, !d.isOffDay, d.name⟩ := by
      intro rest
      rw [onlineScan_cons, if_neg (not_le.mpr hy), hfetch]
      dsimp only
      rw [hfind]
    rw [checkHolidayOnline, candidateYears]
    by_cases h11 : month = 11
    · rw [if_pos h11]
      exact hstep _
    · rw [if_neg h11]
      by_cases h0 : month = 0
      · rw [if_pos h0]
        exact hstep _
      · rw [if_neg h0]
        exact hstep _
  · intro fetchYear year dateStr days1 days2 d hy hf1 hmiss hf2 hhit
    refine ⟨?_, fun hoff => by rw [hoff]; rfl⟩
    rw [checkHolidayOnline, candidateYears, if_pos rfl, onlineScan_cons,
      if_neg (not_le.mpr hy), hf1]
    dsimp only
    rw [hmiss]
    dsimp only
    rw [onlineScan_cons, if_neg (not_le.mpr (by omega)), hf2]
    dsimp only
    rw [hhit]

/-- Concrete yearly tables for the C8 witness: the Dec 31 2024 compensation
record lives only in the 2025 table. -/
def c8Fetch : Int → Except String (List OnlineDay) :=
  fun y =>
    if y = 2024 then .ok [⟨"2024-10-01", true, some "national day"⟩]
    else if y = 2025 then .ok [⟨"2024-12-31", false, some "new year comp"⟩]
    else .ok []

/-- Witness for C8: Dec 31 2024 found only in the 2025 table with
`isOffDay = false` is classified as a compensation workday. -/
theorem claim8_year_boundary_probe_witness :
    candidateYears 2024 11 = [2024, 2025] ∧
    checkHolidayOnline c8Fetch 2024 11 "2024-12-31" =
      .ok ⟨false, true, some "new year comp"⟩ ∧
    (HolidayCheckResult.mk false (!false) (some "new year comp")).isCompensationDay
      = true := by
  refine ⟨by decide, ?_, ?_⟩
  · have h := ((claim8_year_boundary_probe.2.2) c8Fetch 2024 "2024-12-31"
      [⟨"2024-10-01", true, some "national day"⟩]
      [⟨"2024-12-31", false, some "new year comp"⟩]
      ⟨"2024-12-31", false, some "new year comp"⟩
      (by decide) rfl (by decide) rfl (by decide)).1
    exact h
  · exact ((claim8_year_boundary_probe.2.2) c8Fetch 2024 "2024-12-31"
      [⟨"2024-10-01", true, some "national day"⟩]
      [⟨"2024-12-31", false, some "new year comp"⟩]
      ⟨"2024-12-31", false, some "new year comp"⟩
      (by decide) rfl (by decide) rfl (by decide)).2 rfl

/-- The ambient inputs shared by one per-entity check: the holiday-check
collaborators and caches, the current instant (minutes of day, weekday, date
parts, epoch ms), the entity's persisted row, and the action backends. -/
structure TickEnv where
  mod : Option ChineseDaysApi
  fetchYear : Int → Except String (List OnlineDay)
  year : Int
  month : Nat
  dateStr : String
  nowMs : Int
  cache : HolidayCache
  minutes : Nat
  dow : Weekday
  db0 : Option MuteStateRow
  numericGuild : Bool
  backends : List (Option String)

/-- The expected state and reconciliation effect produced for one entity. -/
structure EntityOutcome where
  expected : ExpectedState
  recon : ReconcileResult
deriving DecidableEq

/-- The per-entity body of `MuteCore.run` (the heartbeat loop): check the
holiday, compute the expected state, skip on failure, otherwise reconcile,
passing `groupConfig.guildId` to `reconcileMuteState`.  A holiday-check throw
is caught by the per-entity try/catch and skips the entity. -/
def runEntityStep (cfg : GlobalConfig) (env : TickEnv) (gc : GroupConfig) :
    Option EntityOutcome :=
  match checkHoliday cfg.holidayMethod env.mod env.fetchYear env.year env.month
      env.dateStr env.nowMs env.cache with
  | .error _ => none
  | .ok (h, _) =>
    match computeExpectedState cfg env.minutes env.dow gc h with
    | none => none
    | some es =>
      some ⟨es, reconcileMuteState cfg gc.guildId gc es env.db0 env.nowMs
        env.numericGuild env.backends⟩

/-- `MuteCore.checkGroupNow` (the on-demand single-entity path): look the
policy up by guild id (an unconfigured guild fails), then run the identical
checkHoliday → computeExpectedState → reconcileMuteState sequence, passing
the requested `guildId` to `reconcileMuteState`. -/
def checkGroupNowStep (cfg : GlobalConfig) (env : TickEnv) (guildId : String) :
    Option EntityOutcome :=
  match getGroupConfig cfg guildId with
  | none => none
  | some gc =>
    match checkHoliday cfg.holidayMethod env.mod env.fetchYear env.year
        env.month env.dateStr env.nowMs env.cache with
    | .error _ => none
    | .ok (h, _) =>
      match computeExpectedState cfg env.minutes env.dow gc h with
      | none => none
      | some es =>
        some ⟨es, reconcileMuteState cfg guildId gc es env.db0 env.nowMs
          env.numericGuild env.backends⟩

theorem getGroupConfig_guildId {cfg : GlobalConfig} {gid : String}
    {gc : GroupConfig} (h : getGroupConfig cfg gid = some gc) :
    gc.guildId = gid := by
  have hp := List.find?_some h
  exact eq_of_beq hp

/-- C9: for the same entity and the same instant (the same `TickEnv`), the
on-demand single-entity path and the per-entity body of the scheduled
heartbeat both produce exactly the same optional (expected state,
reconciliation outcome) pair, whenever the entity is configured. -/
theorem claim9_manual_trigger_equivalence :
    ∀ (cfg : GlobalConfig) (env : TickEnv) (guildId : String) (gc : GroupConfig),
    getGroupConfig cfg guildId = some gc →
    checkGroupNowStep cfg env guildId = runEntityStep cfg env gc := by
  intro cfg env guildId gc hgc
  have hid : gc.guildId = guildId := getGroupConfig_guildId hgc
  unfold checkGroupNowStep runEntityStep
  rw [hgc, hid]

/-- Witness for C9 at a concrete configured entity and instant. -/
theorem claim9_manual_trigger_equivalence_witness :
    checkGroupNowStep demoConfig
      ⟨none, fun _ => Except.error "down", 2024, 4, "2024-05-01", 0, ⟨[], []⟩,
       540, .monday, none, true, [none]⟩ "123" =
    runEntityStep demoConfig
      ⟨none, fun _ => Except.error "down", 2024, 4, "2024-05-01", 0, ⟨[], []⟩,
       540, .monday, none, true, [none]⟩
      ⟨"123", true, "holiday", "compensation", "wk"⟩ :=
  claim9_manual_trigger_equivalence demoConfig
    ⟨none, fun _ => Except.error "down", 2024, 4, "2024-05-01", 0, ⟨[], []⟩,
     540, .monday, none, true, [none]⟩ "123"
    ⟨"123", true, "holiday", "compensation", "wk"⟩ rfl

end GipasMute
